import Mathlib

/-!
Verification development for the swift-http-import mirroring tool.

Part 1 embeds the Yum-repository enumeration (pkg/objects/yum.go):
`YumSource.getFileContents`, `YumSource.downloadAndParseXML` and
`YumSource.ListAllFiles`, parameterised over the HTTP side effects of the
underlying URL source and over the gzip/XML library calls.

Part 2 embeds the worker-thread pipeline (threads.go): the scraper, checker
and transfer loops, with Go's channel-`select` nondeterminism and context
cancellation represented by explicit per-iteration schedule oracles.
-/

set_option linter.unusedVariables false

/-- A byte buffer (`[]byte` in Go); each element is a byte value. -/
abbrev Bytes := List Nat

/-- `FileSpec` (identity of a candidate file, a path relative to the source
root). Modelled from the spec: the defining Go file is not in `src/`, but
`yum.go` constructs it as `FileSpec{Path: ...}`. -/
structure FileSpec where
  Path : String
deriving DecidableEq

/-- `ListEntriesError`: a structured enumeration failure carrying the
offending location (URI) and a message. Modelled from the spec: the defining
Go file is not in `src/`, but `yum.go` constructs it positionally as
`ListEntriesError{uri, msg}`, so it has exactly these two fields. -/
structure ListEntriesError where
  Location : String
  Message : String
deriving DecidableEq

/-- One `<data type=T><location href=H/></data>` entry of `repomd.xml`,
as unmarshalled by the anonymous struct in `YumSource.ListAllFiles`. -/
structure RepomdEntry where
  Ty : String
  Href : String
deriving DecidableEq

deriving instance DecidableEq for Except

/-- An HTTP response: a status code and a body stream whose `ReadAll`
either fails or yields the full byte content. -/
structure HTTPResponse where
  StatusCode : Nat
  Body : Except String Bytes
deriving DecidableEq

/-- `FileState`. Modelled from the spec: a comparable fingerprint snapshot
(size, etag/content hash, modification data); its file is not in `src/`. -/
structure FileState where
  SizeBytes : Nat
  Etag : String
  LastModified : String
deriving DecidableEq

/-- The URL source underlying a `YumSource`. Modelled from the spec: url.go
is not in `src/`, so its operations (`Validate`, `Connect`, `GetFile`,
`getURLForPath`) and its HTTP client are abstract behaviours recorded as
fields. `httpNewRequest` models `http.NewRequest("GET", uri, nil)` (which may
fail), `httpDo` models `HTTPClient.Do` returning a response for a URL. -/
structure URLSource where
  validateResult : String → List String
  connectResult : Option String
  getFileResult : String → FileState → Except String (Bytes × FileState)
  getURLForPath : String → String
  httpNewRequest : String → Except String Unit
  httpDo : String → Except String HTTPResponse

/-- The gzip/XML library effects used by the Yum scraper: `gunzip` models
`gzip.NewReader` followed by `ioutil.ReadAll` (either step may fail), and the
three parse functions model `xml.Unmarshal` into the three anonymous struct
shapes of `ListAllFiles` (repomd data entries, primary package hrefs,
prestodelta delta filenames). -/
structure XMLGzipLib where
  gunzip : Bytes → Except String Bytes
  parseRepomd : Bytes → Except String (List RepomdEntry)
  parsePrimary : Bytes → Except String (List String)
  parsePrestodelta : Bytes → Except String (List String)

/-- Modelled from the spec: `URLSource.Validate` (url.go is not in `src/`). -/
def URLSource.Validate (u : URLSource) (name : String) : List String :=
  u.validateResult name

/-- Modelled from the spec: `URLSource.Connect` (url.go is not in `src/`). -/
def URLSource.Connect (u : URLSource) : Option String :=
  u.connectResult

/-- Modelled from the spec: `URLSource.GetFile` (url.go is not in `src/`). -/
def URLSource.GetFile (u : URLSource) (directoryPath : String)
    (targetState : FileState) : Except String (Bytes × FileState) :=
  u.getFileResult directoryPath targetState

/-- Go's `type YumSource URLSource`: the same underlying value. -/
abbrev YumSource := URLSource

/-- `func (s *YumSource) Validate(name string) []error`:
delegates to `(*URLSource)(s).Validate(name)`. -/
def YumSource.Validate (s : YumSource) (name : String) : List String :=
  URLSource.Validate s name

/-- `func (s *YumSource) Connect() error`:
delegates to `(*URLSource)(s).Connect()`. -/
def YumSource.Connect (s : YumSource) : Option String :=
  URLSource.Connect s

/-- `func (s *YumSource) GetFile(...)`:
delegates to `(*URLSource)(s).GetFile(...)`. -/
def YumSource.GetFile (s : YumSource) (directoryPath : String)
    (targetState : FileState) : Except String (Bytes × FileState) :=
  URLSource.GetFile s directoryPath targetState

/-- `func (s *YumSource) ListEntries(directoryPath string)`:
returns `nil` and a "not implemented" `ListEntriesError` at the path's URL. -/
def YumSource.ListEntries (s : YumSource) (directoryPath : String) :
    List FileSpec × Option ListEntriesError :=
  ([], some ⟨s.getURLForPath directoryPath,
             "ListEntries is not implemented for YumSource"⟩)

/-- `bytes.HasPrefix(buf, []byte{0x1f, 0x8b, 0x08})`: the gzip magic test
in `downloadAndParseXML`. -/
def hasGzipMagic : Bytes → Bool
  | 0x1f :: 0x8b :: 0x08 :: _ => true
  | _ => false

/-- `func (s *YumSource) getFileContents(path)`: builds the URL for the path,
constructs a GET request, performs it, reads the body; each failure is
wrapped as `ListEntriesError{uri, "GET failed: " + err}`. Returns the URI
together with the contents or the error, as the Go code does. -/
def YumSource.getFileContents (s : YumSource) (path : String) :
    String × Except ListEntriesError Bytes :=
  let uri := s.getURLForPath path
  match s.httpNewRequest uri with
  | .error err => (uri, .error ⟨uri, "GET failed: " ++ err⟩)
  | .ok _ =>
    match s.httpDo uri with
    | .error err => (uri, .error ⟨uri, "GET failed: " ++ err⟩)
    | .ok resp =>
      match resp.Body with
      | .error err => (uri, .error ⟨uri, "GET failed: " ++ err⟩)
      | .ok result => (uri, .ok result)

/-- The gzip step of `downloadAndParseXML`: if `buf` has the gzip magic
number, decompress it (`gzip.NewReader` + `ReadAll`, collapsed into
`lib.gunzip`; a failure in either step yields the decompression error at
`uri`); otherwise pass `buf` through unchanged. -/
def decompressIfGzip (lib : XMLGzipLib) (uri : String) (buf : Bytes) :
    Except ListEntriesError Bytes :=
  if hasGzipMagic buf then
    match lib.gunzip buf with
    | .error err =>
        .error ⟨uri, "error while decompressing GZip archive: " ++ err⟩
    | .ok b => .ok b
  else .ok buf

/-- The `xml.Unmarshal` step of `downloadAndParseXML`: a parse failure is
wrapped as `ListEntriesError{uri, "error while parsing XML: " + err}`. -/
def parseXMLStep (uri : String) (r : Except String α) :
    Except ListEntriesError α :=
  match r with
  | .error err => .error ⟨uri, "error while parsing XML: " ++ err⟩
  | .ok d => .ok d

/-- `func (s *YumSource) downloadAndParseXML(path, data)`: fetch the
document, decompress it when it carries the gzip magic number, then parse it
as XML (the generic `data` target is the `parse` argument). Returns the URI
together with the parse result or error. -/
def YumSource.downloadAndParseXML (s : YumSource) (lib : XMLGzipLib)
    (parse : Bytes → Except String α) (path : String) :
    String × Except ListEntriesError α :=
  match s.getFileContents path with
  | (uri, .error lerr) => (uri, .error lerr)
  | (uri, .ok buf) =>
    match decompressIfGzip lib uri buf with
    | .error lerr => (uri, .error lerr)
    | .ok buf2 => (uri, parseXMLStep uri (parse buf2))

/-- The `hrefsByType` map of `ListAllFiles`: built by inserting every repomd
entry in order (`hrefsByType[entry.Type] = entry.Location.Href`), so a later
entry of the same type overwrites an earlier one; `hrefsByType entries t`
is the map lookup for `t`. -/
def hrefsByType (entries : List RepomdEntry) (ty : String) : Option String :=
  entries.foldl (fun acc e => if e.Ty = ty then some e.Href else acc) none

/-- `func (s *YumSource) ListAllFiles()`: parse `repodata/repomd.xml`; record
it and every data entry's href as files; require a `primary` entry (else a
`ListEntriesError` at the repomd URL); append every package href of the
primary index; if a `prestodelta` entry exists, append every delta filename
of that index. -/
def YumSource.ListAllFiles (s : YumSource) (lib : XMLGzipLib) :
    Except ListEntriesError (List FileSpec) :=
  match s.downloadAndParseXML lib lib.parseRepomd "repodata/repomd.xml" with
  | (_, .error lerr) => .error lerr
  | (repomdURL, .ok entries) =>
    let allFiles := FileSpec.mk "repodata/repomd.xml" ::
      entries.map (fun e => FileSpec.mk e.Href)
    match hrefsByType entries "primary" with
    | none => .error ⟨repomdURL,
        "cannot find link to primary.xml.gz in repomd.xml"⟩
    | some href =>
      match s.downloadAndParseXML lib lib.parsePrimary href with
      | (_, .error lerr) => .error lerr
      | (_, .ok packages) =>
        let allFiles2 := allFiles ++ packages.map FileSpec.mk
        match hrefsByType entries "prestodelta" with
        | none => .ok allFiles2
        | some href2 =>
          match s.downloadAndParseXML lib lib.parsePrestodelta href2 with
          | (_, .error lerr) => .error lerr
          | (_, .ok deltas) => .ok (allFiles2 ++ deltas.map FileSpec.mk)

/-!
Part 2: the worker-thread pipeline of threads.go.

Each stage loop is embedded as a function of the whole stream it could read,
plus schedule oracles for the nondeterminism of the Go runtime:
`cancelled i` says whether the shared context's done channel is closed when
the loop head / `select` of iteration `i` runs, and `takeDone i` says which
branch a `select` chooses when both the done channel and the input channel
are ready (Go chooses uniformly at random among ready cases).  An exhausted
input list models a closed, drained channel, whose receive yields the
zero-value `File` (empty path).
-/

/-- A unit of pipeline work. Modelled from the spec: file.go is not in
`src/`; threads.go only ever reads its `Path` field, and its
`NeedsTransfer`/`PerformTransfer` behaviours are abstracted as oracles. -/
structure File where
  Path : String
deriving DecidableEq

/-- What the scraper goroutine of `makeScraperThread` produced: the files
pushed to its output channel in order, and its two local tallies. -/
structure ScrapeOutcome where
  sent : List File
  directoriesScanned : Nat
  filesFound : Nat
deriving DecidableEq

/-- The scraper loop body (threads.go:91-105): at each iteration check the
context, then whether the enumerator is done, then push every file of the
next directory listing (counting each in `filesFound`) and count the
directory. `dirs` is the enumerator's remaining per-directory listings
(the `Scraper` type itself is not in `src/`; the spec only says it yields
the discovered files of one directory-equivalent per `Next` call). -/
def scraperGo (cancelled : Nat → Bool) :
    Nat → List (List File) → List File → Nat → Nat → ScrapeOutcome
  | i, dirs, sent, ds, ff =>
    if cancelled i then ⟨sent, ds, ff⟩
    else
      match dirs with
      | [] => ⟨sent, ds, ff⟩
      | d :: rest =>
          scraperGo cancelled (i + 1) rest (sent ++ d) (ds + 1)
            (ff + d.length)

/-- `makeScraperThread`'s goroutine, run to completion. -/
def makeScraperThread (cancelled : Nat → Bool)
    (dirs : List (List File)) : ScrapeOutcome :=
  scraperGo cancelled 0 dirs [] 0 0

/-- What the checker goroutine of `makeCheckerThread` did: the files on
which `NeedsTransfer` was invoked in order, the files forwarded to its
output channel, and its local tally. -/
structure CheckOutcome where
  checked : List File
  sent : List File
  filesNeedTransfer : Nat
deriving DecidableEq

/-- The checker loop body (threads.go:126-142): each iteration is a `select`
over the done channel and the input channel; the done branch exits; a
received file with an empty path (the zero value of a closed channel) exits;
otherwise `NeedsTransfer` is evaluated and, when true, the file is counted
and forwarded. -/
def checkerGo (needsTransfer : File → Bool) (cancelled takeDone : Nat → Bool) :
    Nat → List File → List File → List File → Nat → CheckOutcome
  | i, input, checked, sent, n =>
    if cancelled i && takeDone i then ⟨checked, sent, n⟩
    else
      match input with
      | [] => ⟨checked, sent, n⟩
      | f :: rest =>
        if f.Path = "" then ⟨checked, sent, n⟩
        else if needsTransfer f then
          checkerGo needsTransfer cancelled takeDone (i + 1) rest
            (checked ++ [f]) (sent ++ [f]) (n + 1)
        else
          checkerGo needsTransfer cancelled takeDone (i + 1) rest
            (checked ++ [f]) sent n

/-- `makeCheckerThread`'s goroutine, run to completion on its input. -/
def makeCheckerThread (needsTransfer : File → Bool)
    (cancelled takeDone : Nat → Bool) (input : List File) : CheckOutcome :=
  checkerGo needsTransfer cancelled takeDone 0 input [] [] 0

/-- What the transfer goroutine of `makeTransferThread` did: the files on
which `PerformTransfer` was invoked in order, and its local tally of
confirmed successes. -/
structure TransferOutcome where
  attempted : List File
  filesTransferred : Nat
deriving DecidableEq

/-- The transfer loop body (threads.go:160-175): same `select` shape as the
checker, calling `PerformTransfer` and counting only successes. -/
def transferGo (performTransfer : File → Bool)
    (cancelled takeDone : Nat → Bool) :
    Nat → List File → List File → Nat → TransferOutcome
  | i, input, attempted, n =>
    if cancelled i && takeDone i then ⟨attempted, n⟩
    else
      match input with
      | [] => ⟨attempted, n⟩
      | f :: rest =>
        if f.Path = "" then ⟨attempted, n⟩
        else
          transferGo performTransfer cancelled takeDone (i + 1) rest
            (attempted ++ [f]) (if performTransfer f then n + 1 else n)

/-- `makeTransferThread`'s goroutine, run to completion on its input. -/
def makeTransferThread (performTransfer : File → Bool)
    (cancelled takeDone : Nat → Bool) (input : List File) : TransferOutcome :=
  transferGo performTransfer cancelled takeDone 0 input [] 0

/-- The four counter fields of `SharedState`. -/
inductive CounterId
  | directoriesScanned
  | filesFound
  | filesNeedTransfer
  | filesTransferred
deriving DecidableEq

/-- The counter fields of `SharedState` (threads.go:34-47). -/
structure SharedState where
  DirectoriesScanned : Nat
  FilesFound : Nat
  FilesNeedTransfer : Nat
  FilesTransferred : Nat
deriving DecidableEq

/-- The writes the scraper goroutine performs on `SharedState`, in program
order: exactly its two counters, once each, after its loop has ended
(threads.go:108-109). -/
def scraperWrites (o : ScrapeOutcome) : List (CounterId × Nat) :=
  [(.directoriesScanned, o.directoriesScanned), (.filesFound, o.filesFound)]

/-- The single write the checker goroutine performs after its loop
(threads.go:145). -/
def checkerWrites (o : CheckOutcome) : List (CounterId × Nat) :=
  [(.filesNeedTransfer, o.filesNeedTransfer)]

/-- The single write the transfer goroutine performs after its loop
(threads.go:178). -/
def transferWrites (o : TransferOutcome) : List (CounterId × Nat) :=
  [(.filesTransferred, o.filesTransferred)]

/-- Apply one counter write to the shared state. -/
def applyWrite (st : SharedState) : CounterId × Nat → SharedState
  | (.directoriesScanned, v) => { st with DirectoriesScanned := v }
  | (.filesFound, v) => { st with FilesFound := v }
  | (.filesNeedTransfer, v) => { st with FilesNeedTransfer := v }
  | (.filesTransferred, v) => { st with FilesTransferred := v }

/-- `Run` (threads.go:50-76): wire scraper → checker → transfer over FIFO
channels, wait for all three goroutines (`WaitGroup.Wait`), and only then
read the counters that the stages wrote.  The channels are FIFO and
single-producer, so the checker reads (a prefix of) exactly the scraper's
output in order, and likewise the transfer stage; the state the orchestrator
logs is the zero state after all stage writes have been applied. -/
def Run (cancelled takeDoneChecker takeDoneTransfer : Nat → Bool)
    (dirs : List (List File))
    (needsTransfer performTransfer : File → Bool) : SharedState :=
  let so := makeScraperThread cancelled dirs
  let co := makeCheckerThread needsTransfer cancelled takeDoneChecker so.sent
  let tro := makeTransferThread performTransfer cancelled takeDoneTransfer
    co.sent
  (scraperWrites so ++ checkerWrites co ++ transferWrites tro).foldl
    applyWrite ⟨0, 0, 0, 0⟩

/-!
Concrete sample environments, used to instantiate the theorems below on
closed inputs.  Documents are identified by tiny byte bodies; the parse
oracles recognise exactly the body of the document they are meant for.
-/

/-- A sample gzip/XML library: the repomd document `[1]` lists a `primary`
and a `prestodelta` entry, the primary document `[2]` lists one package,
the prestodelta document `[3]` lists one delta.  The bytes
`[0x1f, 0x8b, 0x08, 5]` are a gzip archive holding the primary document;
`[0x1f, 0x8b, 0x08, 6]` is a corrupt gzip archive. -/
def sampleLib : XMLGzipLib where
  gunzip := fun b =>
    if b = [0x1f, 0x8b, 0x08, 5] then .ok [2] else .error "corrupt archive"
  parseRepomd := fun b =>
    if b = [1] then
      .ok [⟨"primary", "repodata/p.xml"⟩, ⟨"prestodelta", "repodata/d.xml"⟩]
    else .error "unexpected content"
  parsePrimary := fun b =>
    if b = [2] then .ok ["pkg-1.0.rpm"] else .error "unexpected content"
  parsePrestodelta := fun b =>
    if b = [3] then .ok ["pkg-1.0-1.1.drpm"] else .error "unexpected content"

/-- Like `sampleLib`, but the repomd document lists no `primary` entry. -/
def sampleLibNoPrimary : XMLGzipLib :=
  { sampleLib with
    parseRepomd := fun b =>
      if b = [1] then .ok [⟨"filelists", "repodata/f.xml"⟩]
      else .error "unexpected content" }

/-- Like `sampleLib`, but the repomd document lists only a `primary` entry
(no `prestodelta`). -/
def sampleLibNoDelta : XMLGzipLib :=
  { sampleLib with
    parseRepomd := fun b =>
      if b = [1] then .ok [⟨"primary", "repodata/p.xml"⟩]
      else .error "unexpected content" }

/-- A sample source serving the documents of `sampleLib` over plain bodies;
unknown paths get a 404 response whose body is the bytes `[9]`. -/
def sampleSource : URLSource where
  validateResult := fun _ => []
  connectResult := none
  getFileResult := fun _ st => .ok ([7], st)
  getURLForPath := fun p => "http://repo.example/" ++ p
  httpNewRequest := fun _ => .ok ()
  httpDo := fun u =>
    if u = "http://repo.example/repodata/repomd.xml" then .ok ⟨200, .ok [1]⟩
    else if u = "http://repo.example/repodata/p.xml" then .ok ⟨200, .ok [2]⟩
    else if u = "http://repo.example/repodata/d.xml" then .ok ⟨200, .ok [3]⟩
    else .ok ⟨404, .ok [9]⟩

/-- Like `sampleSource`, but the primary index is served gzip-compressed
(`[0x1f, 0x8b, 0x08, 5]`, which `sampleLib.gunzip` unpacks to `[2]`). -/
def sampleSourceGzip : URLSource :=
  { sampleSource with
    httpDo := fun u =>
      if u = "http://repo.example/repodata/repomd.xml" then .ok ⟨200, .ok [1]⟩
      else if u = "http://repo.example/repodata/p.xml" then
        .ok ⟨200, .ok [0x1f, 0x8b, 0x08, 5]⟩
      else if u = "http://repo.example/repodata/d.xml" then .ok ⟨200, .ok [3]⟩
      else .ok ⟨404, .ok [9]⟩ }

/-- Like `sampleSource`, but the primary index is served as a corrupt gzip
archive (`[0x1f, 0x8b, 0x08, 6]`). -/
def sampleSourceCorruptGzip : URLSource :=
  { sampleSource with
    httpDo := fun u =>
      if u = "http://repo.example/repodata/repomd.xml" then .ok ⟨200, .ok [1]⟩
      else if u = "http://repo.example/repodata/p.xml" then
        .ok ⟨200, .ok [0x1f, 0x8b, 0x08, 6]⟩
      else .ok ⟨404, .ok [9]⟩ }

/-- A sample source whose HTTP client fails every request. -/
def sampleSourceDown : URLSource :=
  { sampleSource with httpDo := fun _ => .error "connection refused" }

/-!
Helper lemmas about the Yum enumeration.
-/

/-- The first component returned by `getFileContents` is always the URL
built for the requested path. -/
theorem getFileContents_fst (s : YumSource) (path : String) :
    (YumSource.getFileContents s path).1 = s.getURLForPath path := by
  unfold YumSource.getFileContents
  simp only
  split
  · rfl
  · split
    · rfl
    · split <;> rfl

/-- Every error produced by `getFileContents` carries the requested URL as
its location. -/
theorem getFileContents_error_loc (s : YumSource) (path : String)
    (e : ListEntriesError)
    (h : (YumSource.getFileContents s path).2 = Except.error e) :
    e.Location = s.getURLForPath path := by
  unfold YumSource.getFileContents at h
  simp only at h
  split at h
  · cases h; rfl
  · split at h
    · cases h; rfl
    · split at h
      · cases h; rfl
      · simp at h

/-- Every error produced by the gzip step carries the given URI. -/
theorem decompressIfGzip_error_loc (lib : XMLGzipLib) (uri : String)
    (buf : Bytes) (e : ListEntriesError)
    (h : decompressIfGzip lib uri buf = Except.error e) :
    e.Location = uri := by
  unfold decompressIfGzip at h
  split at h
  · split at h
    · cases h; rfl
    · simp at h
  · simp at h

/-- Every error produced by the XML-parse step carries the given URI. -/
theorem parseXMLStep_error_loc {α : Type} (uri : String)
    (r : Except String α) (e : ListEntriesError)
    (h : parseXMLStep uri r = Except.error e) : e.Location = uri := by
  unfold parseXMLStep at h
  split at h
  · cases h; rfl
  · simp at h

/-- The first component returned by `downloadAndParseXML` is always the URL
built for the requested path. -/
theorem downloadAndParseXML_fst {α : Type} (s : YumSource) (lib : XMLGzipLib)
    (parse : Bytes → Except String α) (path : String) :
    (YumSource.downloadAndParseXML s lib parse path).1 =
      s.getURLForPath path := by
  unfold YumSource.downloadAndParseXML
  have hfst := getFileContents_fst s path
  split
  next uri lerr heq => rw [heq] at hfst; exact hfst
  next uri buf heq =>
    rw [heq] at hfst
    split <;> exact hfst

/-- Every error produced by `downloadAndParseXML` carries the requested URL
as its location. -/
theorem downloadAndParseXML_error_loc {α : Type} (s : YumSource)
    (lib : XMLGzipLib) (parse : Bytes → Except String α) (path : String)
    (e : ListEntriesError)
    (h : (YumSource.downloadAndParseXML s lib parse path).2 =
      Except.error e) :
    e.Location = s.getURLForPath path := by
  unfold YumSource.downloadAndParseXML at h
  split at h
  next uri lerr heq =>
    simp only at h
    cases h
    exact getFileContents_error_loc s path _ (by rw [heq])
  next uri buf heq =>
    have huri : uri = s.getURLForPath path := by
      have hfst := getFileContents_fst s path
      rw [heq] at hfst
      exact hfst
    split at h
    next lerr2 heq2 =>
      simp only at h
      cases h
      rw [← huri]
      exact decompressIfGzip_error_loc lib uri buf _ heq2
    next buf2 heq2 =>
      simp only at h
      rw [← huri]
      exact parseXMLStep_error_loc uri _ _ h

/-- If no entry of `entries` has type `ty`, the `hrefsByType` map lookup
for `ty` yields nothing. -/
theorem hrefsByType_eq_none (entries : List RepomdEntry) (ty : String)
    (h : ∀ e ∈ entries, e.Ty ≠ ty) : hrefsByType entries ty = none := by
  induction entries with
  | nil => rfl
  | cons e rest ih =>
    unfold hrefsByType
    simp only [List.foldl_cons]
    rw [if_neg (h e (by simp))]
    exact ih (fun x hx => h x (by simp [hx]))

/-- The gzip-magic test succeeds exactly on buffers starting with the three
bytes `1F 8B 08`. -/
theorem hasGzipMagic_iff (buf : Bytes) :
    hasGzipMagic buf = true ↔
      ∃ rest, buf = 0x1f :: 0x8b :: 0x08 :: rest := by
  constructor
  · intro h
    unfold hasGzipMagic at h
    split at h
    · next rest => exact ⟨rest, rfl⟩
    · simp at h
  · rintro ⟨rest, rfl⟩
    rfl

/-- When the buffer has no gzip magic number it passes through unchanged. -/
theorem decompressIfGzip_eq_of_not_magic (lib : XMLGzipLib) (uri : String)
    (buf : Bytes) (hm : hasGzipMagic buf = false) :
    decompressIfGzip lib uri buf = .ok buf := by
  simp [decompressIfGzip, hm]

/-- When the buffer has the gzip magic number and decompression succeeds,
the decompressed bytes are passed on. -/
theorem decompressIfGzip_eq_of_gunzip_ok (lib : XMLGzipLib) (uri : String)
    (buf b : Bytes) (hm : hasGzipMagic buf = true)
    (hg : lib.gunzip buf = .ok b) :
    decompressIfGzip lib uri buf = .ok b := by
  simp [decompressIfGzip, hm, hg]

/-- When the buffer has the gzip magic number and decompression fails, the
result is the decompression error at the given URI. -/
theorem decompressIfGzip_eq_of_gunzip_error (lib : XMLGzipLib) (uri : String)
    (buf : Bytes) (msg : String) (hm : hasGzipMagic buf = true)
    (hg : lib.gunzip buf = .error msg) :
    decompressIfGzip lib uri buf =
      .error ⟨uri, "error while decompressing GZip archive: " ++ msg⟩ := by
  simp [decompressIfGzip, hm, hg]

/-!
The claims.
-/

/-- C1: for every repomd.xml whose data entries include both a `primary` and
a `prestodelta` type, `ListAllFiles` returns exactly
`repodata/repomd.xml`, then every `<data>` entry's location href in document
order, then every `<package>` location href of the primary index, then every
`<newpackage><delta>` filename of the prestodelta index — nothing is
dropped, and duplicate paths are kept (the lists are concatenated as-is). -/
theorem listAllFiles_full_union (s : YumSource) (lib : XMLGzipLib)
    (E : List RepomdEntry) (P D : List String)
    (u1 u2 u3 hrefP hrefD : String)
    (h1 : YumSource.downloadAndParseXML s lib lib.parseRepomd
      "repodata/repomd.xml" = (u1, .ok E))
    (h2 : hrefsByType E "primary" = some hrefP)
    (h3 : YumSource.downloadAndParseXML s lib lib.parsePrimary hrefP =
      (u2, .ok P))
    (h4 : hrefsByType E "prestodelta" = some hrefD)
    (h5 : YumSource.downloadAndParseXML s lib lib.parsePrestodelta hrefD =
      (u3, .ok D)) :
    YumSource.ListAllFiles s lib = .ok
      ((FileSpec.mk "repodata/repomd.xml" ::
        E.map fun e => FileSpec.mk e.Href)
        ++ P.map FileSpec.mk ++ D.map FileSpec.mk) := by
  unfold YumSource.ListAllFiles
  rw [h1]
  dsimp only
  rw [h2]
  dsimp only
  rw [h3]
  dsimp only
  rw [h4]
  dsimp only
  rw [h5]

/-- Witness for C1: the sample repository (primary and prestodelta present)
enumerates to exactly the five expected paths. -/
theorem listAllFiles_full_union_witness :
    YumSource.ListAllFiles sampleSource sampleLib = .ok
      [⟨"repodata/repomd.xml"⟩, ⟨"repodata/p.xml"⟩, ⟨"repodata/d.xml"⟩,
       ⟨"pkg-1.0.rpm"⟩, ⟨"pkg-1.0-1.1.drpm"⟩] :=
  listAllFiles_full_union sampleSource sampleLib
    [⟨"primary", "repodata/p.xml"⟩, ⟨"prestodelta", "repodata/d.xml"⟩]
    ["pkg-1.0.rpm"] ["pkg-1.0-1.1.drpm"]
    "http://repo.example/repodata/repomd.xml"
    "http://repo.example/repodata/p.xml"
    "http://repo.example/repodata/d.xml"
    "repodata/p.xml" "repodata/d.xml"
    (by decide) (by decide) (by decide) (by decide) (by decide)

/-- C4: a repomd.xml whose data entries contain no `primary` type makes
`ListAllFiles` fail with a `ListEntriesError` located at the repomd.xml URL;
a repomd.xml with a `primary` entry but no `prestodelta` entry enumerates
successfully and returns exactly the metadata files plus the primary
packages — no delta-RPM files. -/
theorem listAllFiles_primary_required_prestodelta_optional
    (s : YumSource) (lib : XMLGzipLib) :
    (∀ E u1, YumSource.downloadAndParseXML s lib lib.parseRepomd
        "repodata/repomd.xml" = (u1, .ok E) →
      (∀ e ∈ E, e.Ty ≠ "primary") →
      YumSource.ListAllFiles s lib = .error
        ⟨u1, "cannot find link to primary.xml.gz in repomd.xml"⟩ ∧
      u1 = s.getURLForPath "repodata/repomd.xml") ∧
    (∀ E u1 u2 hrefP P, YumSource.downloadAndParseXML s lib lib.parseRepomd
        "repodata/repomd.xml" = (u1, .ok E) →
      (∀ e ∈ E, e.Ty ≠ "prestodelta") →
      hrefsByType E "primary" = some hrefP →
      YumSource.downloadAndParseXML s lib lib.parsePrimary hrefP =
        (u2, .ok P) →
      YumSource.ListAllFiles s lib = .ok
        ((FileSpec.mk "repodata/repomd.xml" ::
          E.map fun e => FileSpec.mk e.Href) ++ P.map FileSpec.mk)) := by
  constructor
  · intro E u1 h1 hnone
    constructor
    · unfold YumSource.ListAllFiles
      rw [h1]
      dsimp only
      rw [hrefsByType_eq_none E _ hnone]
    · have hfst := downloadAndParseXML_fst s lib lib.parseRepomd
        "repodata/repomd.xml"
      rw [h1] at hfst
      exact hfst
  · intro E u1 u2 hrefP P h1 hnone h2 h3
    unfold YumSource.ListAllFiles
    rw [h1]
    dsimp only
    rw [h2]
    dsimp only
    rw [h3]
    dsimp only
    rw [hrefsByType_eq_none E _ hnone]

/-- Witness for C4: a sample repository without `primary` fails at the
repomd.xml URL; one without `prestodelta` succeeds with no delta files. -/
theorem listAllFiles_primary_required_prestodelta_optional_witness :
    YumSource.ListAllFiles sampleSource sampleLibNoPrimary = .error
      ⟨"http://repo.example/repodata/repomd.xml",
       "cannot find link to primary.xml.gz in repomd.xml"⟩ ∧
    YumSource.ListAllFiles sampleSource sampleLibNoDelta = .ok
      [⟨"repodata/repomd.xml"⟩, ⟨"repodata/p.xml"⟩, ⟨"pkg-1.0.rpm"⟩] :=
  ⟨((listAllFiles_primary_required_prestodelta_optional sampleSource
        sampleLibNoPrimary).1 [⟨"filelists", "repodata/f.xml"⟩]
      "http://repo.example/repodata/repomd.xml" (by decide) (by decide)).1,
   (listAllFiles_primary_required_prestodelta_optional sampleSource
        sampleLibNoDelta).2 [⟨"primary", "repodata/p.xml"⟩]
      "http://repo.example/repodata/repomd.xml"
      "http://repo.example/repodata/p.xml" "repodata/p.xml" ["pkg-1.0.rpm"]
      (by decide) (by decide) (by decide) (by decide)⟩

/-- C5: a fetched document is gzip-decompressed before XML parsing exactly
when its content begins with the bytes `1F 8B 08` (the first conjunct
characterises the magic-number test); without that prefix the raw bytes are
parsed as-is; with the prefix and a successful decompression the
decompressed bytes are parsed; with the prefix and a failing decompression
the result is a `ListEntriesError` at that document's URL. -/
theorem downloadAndParseXML_gzip_detection {α : Type} (s : YumSource)
    (lib : XMLGzipLib) (parse : Bytes → Except String α)
    (path uri : String) (buf : Bytes)
    (h : YumSource.getFileContents s path = (uri, .ok buf)) :
    (hasGzipMagic buf = true ↔
      ∃ rest, buf = 0x1f :: 0x8b :: 0x08 :: rest) ∧
    (hasGzipMagic buf = false →
      YumSource.downloadAndParseXML s lib parse path =
        (uri, parseXMLStep uri (parse buf))) ∧
    (∀ b, hasGzipMagic buf = true → lib.gunzip buf = .ok b →
      YumSource.downloadAndParseXML s lib parse path =
        (uri, parseXMLStep uri (parse b))) ∧
    (∀ msg, hasGzipMagic buf = true → lib.gunzip buf = .error msg →
      YumSource.downloadAndParseXML s lib parse path =
        (uri, .error ⟨uri,
          "error while decompressing GZip archive: " ++ msg⟩)) := by
  refine ⟨hasGzipMagic_iff buf, ?_, ?_, ?_⟩
  · intro hm
    unfold YumSource.downloadAndParseXML
    rw [h]
    dsimp only
    rw [decompressIfGzip_eq_of_not_magic lib uri buf hm]
  · intro b hm hg
    unfold YumSource.downloadAndParseXML
    rw [h]
    dsimp only
    rw [decompressIfGzip_eq_of_gunzip_ok lib uri buf b hm hg]
  · intro msg hm hg
    unfold YumSource.downloadAndParseXML
    rw [h]
    dsimp only
    rw [decompressIfGzip_eq_of_gunzip_error lib uri buf msg hm hg]

/-- Witness for C5: a plain document is parsed as-is, a gzip-compressed
primary index is decompressed and parsed, and a corrupt gzip archive yields
the decompression error at the document's URL. -/
theorem downloadAndParseXML_gzip_detection_witness :
    YumSource.downloadAndParseXML sampleSource sampleLib
      sampleLib.parsePrimary "repodata/p.xml" =
      ("http://repo.example/repodata/p.xml", .ok ["pkg-1.0.rpm"]) ∧
    YumSource.downloadAndParseXML sampleSourceGzip sampleLib
      sampleLib.parsePrimary "repodata/p.xml" =
      ("http://repo.example/repodata/p.xml", .ok ["pkg-1.0.rpm"]) ∧
    YumSource.downloadAndParseXML sampleSourceCorruptGzip sampleLib
      sampleLib.parsePrimary "repodata/p.xml" =
      ("http://repo.example/repodata/p.xml",
       .error ⟨"http://repo.example/repodata/p.xml",
         "error while decompressing GZip archive: corrupt archive"⟩) :=
  ⟨(downloadAndParseXML_gzip_detection sampleSource sampleLib
      sampleLib.parsePrimary "repodata/p.xml"
      "http://repo.example/repodata/p.xml" [2] (by decide)).2.1 (by decide),
   (downloadAndParseXML_gzip_detection sampleSourceGzip sampleLib
      sampleLib.parsePrimary "repodata/p.xml"
      "http://repo.example/repodata/p.xml" [0x1f, 0x8b, 0x08, 5]
      (by decide)).2.2.1 [2] (by decide) (by decide),
   (downloadAndParseXML_gzip_detection sampleSourceCorruptGzip sampleLib
      sampleLib.parsePrimary "repodata/p.xml"
      "http://repo.example/repodata/p.xml" [0x1f, 0x8b, 0x08, 6]
      (by decide)).2.2.2 "corrupt archive" (by decide) (by decide)⟩

/-- C6: both fetch helpers always report the URL built for the requested
path, and every `ListEntriesError` they produce — failed request
construction, failed GET, failed body read, failed decompression, failed
XML parse — carries exactly that URL as its location. -/
theorem yum_errors_located_at_failed_url {α : Type} (s : YumSource)
    (lib : XMLGzipLib) (parse : Bytes → Except String α) (path : String) :
    ((YumSource.getFileContents s path).1 = s.getURLForPath path ∧
     ∀ e, (YumSource.getFileContents s path).2 = Except.error e →
       e.Location = s.getURLForPath path) ∧
    ((YumSource.downloadAndParseXML s lib parse path).1 =
        s.getURLForPath path ∧
     ∀ e, (YumSource.downloadAndParseXML s lib parse path).2 =
         Except.error e → e.Location = s.getURLForPath path) :=
  ⟨⟨getFileContents_fst s path,
    fun e he => getFileContents_error_loc s path e he⟩,
   ⟨downloadAndParseXML_fst s lib parse path,
    fun e he => downloadAndParseXML_error_loc s lib parse path e he⟩⟩

/-- Witness for C6: a failing GET against the sample source surfaces with
the failing URL as its location. -/
theorem yum_errors_located_at_failed_url_witness :
    (ListEntriesError.mk "http://repo.example/x"
      "GET failed: connection refused").Location =
      sampleSourceDown.getURLForPath "x" :=
  (yum_errors_located_at_failed_url sampleSourceDown sampleLib
    sampleLib.parseRepomd "x").1.2
    (ListEntriesError.mk "http://repo.example/x"
      "GET failed: connection refused") (by decide)

/-- C8: `Validate`, `Connect` and `GetFile` of a `YumSource` are pure
delegation to the same operations of the underlying `URLSource` value, and
`ListEntries` (together with `ListAllFiles`) is the only behaviour replaced:
it never delegates but returns the "not implemented" error at the path's
URL. -/
theorem yumSource_pure_delegation (s : YumSource) :
    (∀ name, YumSource.Validate s name = URLSource.Validate s name) ∧
    (YumSource.Connect s = URLSource.Connect s) ∧
    (∀ p st, YumSource.GetFile s p st = URLSource.GetFile s p st) ∧
    (∀ p, YumSource.ListEntries s p = ([], some ⟨s.getURLForPath p,
      "ListEntries is not implemented for YumSource"⟩)) :=
  ⟨fun _ => rfl, rfl, fun _ _ => rfl, fun _ => rfl⟩

/-- C9: `getFileContents` never inspects the HTTP status code: whatever the
status of the response (404 and 500 included), the full body is returned as
the document contents; consequently an error page that is not valid XML
surfaces later as an XML-parse `ListEntriesError` at that URL, not as an
HTTP-level fetch failure. -/
theorem getFileContents_ignores_status {α : Type} (s : YumSource)
    (lib : XMLGzipLib) (parse : Bytes → Except String α) (path : String)
    (code : Nat) (contents : Bytes)
    (h1 : s.httpNewRequest (s.getURLForPath path) = .ok ())
    (h2 : s.httpDo (s.getURLForPath path) = .ok ⟨code, .ok contents⟩) :
    YumSource.getFileContents s path =
      (s.getURLForPath path, .ok contents) ∧
    (∀ msg, hasGzipMagic contents = false → parse contents = .error msg →
      YumSource.downloadAndParseXML s lib parse path =
        (s.getURLForPath path, .error ⟨s.getURLForPath path,
          "error while parsing XML: " ++ msg⟩)) := by
  have hmain : YumSource.getFileContents s path =
      (s.getURLForPath path, .ok contents) := by
    unfold YumSource.getFileContents
    simp only
    rw [h1]
    dsimp only
    rw [h2]
  refine ⟨hmain, ?_⟩
  intro msg hm hp
  unfold YumSource.downloadAndParseXML
  rw [hmain]
  dsimp only
  rw [decompressIfGzip_eq_of_not_magic lib _ contents hm]
  dsimp only
  rw [hp]
  rfl

/-- Witness for C9: the sample source's 404 response body is returned as
the document contents. -/
theorem getFileContents_ignores_status_witness :
    YumSource.getFileContents sampleSource "missing/404.xml" =
      ("http://repo.example/missing/404.xml", .ok [9]) :=
  (getFileContents_ignores_status sampleSource sampleLib
    sampleLib.parseRepomd "missing/404.xml" 404 [9]
    (by decide) (by decide)).1

/-- C10: whenever `ListAllFiles` succeeds its result is non-empty, starts
with the `repodata/repomd.xml` FileSpec, and is exactly the repomd data
hrefs in document order, then the primary package hrefs in document order,
then — exactly when a `prestodelta` entry exists — the delta filenames in
document order. -/
theorem listAllFiles_result_shape (s : YumSource) (lib : XMLGzipLib)
    (files : List FileSpec)
    (h : YumSource.ListAllFiles s lib = .ok files) :
    files ≠ [] ∧
    files.head? = some (FileSpec.mk "repodata/repomd.xml") ∧
    ∃ E P tail,
      (YumSource.downloadAndParseXML s lib lib.parseRepomd
        "repodata/repomd.xml").2 = .ok E ∧
      (∃ hrefP, hrefsByType E "primary" = some hrefP ∧
        (YumSource.downloadAndParseXML s lib lib.parsePrimary hrefP).2 =
          .ok P) ∧
      files = (FileSpec.mk "repodata/repomd.xml" ::
          E.map fun e => FileSpec.mk e.Href) ++ P.map FileSpec.mk ++ tail ∧
      ((hrefsByType E "prestodelta" = none ∧ tail = []) ∨
       (∃ hrefD D, hrefsByType E "prestodelta" = some hrefD ∧
         (YumSource.downloadAndParseXML s lib lib.parsePrestodelta
           hrefD).2 = .ok D ∧
         tail = D.map FileSpec.mk)) := by
  unfold YumSource.ListAllFiles at h
  split at h
  · simp at h
  next repomdURL entries heq1 =>
    simp only at h
    split at h
    · simp at h
    next hrefP heq2 =>
      split at h
      · simp at h
      next u2 P heq3 =>
        split at h
        · next heq4 =>
          cases h
          refine ⟨by simp, by simp, entries, P, [], ?_,
            ⟨hrefP, heq2, ?_⟩, by simp, Or.inl ⟨heq4, rfl⟩⟩
          · rw [heq1]
          · rw [heq3]
        next hrefD heq4 =>
          split at h
          · simp at h
          next u3 D heq5 =>
            cases h
            refine ⟨by simp, by simp, entries, P, D.map FileSpec.mk, ?_,
              ⟨hrefP, heq2, ?_⟩, by simp, Or.inr ⟨hrefD, D, heq4, ?_, rfl⟩⟩
            · rw [heq1]
            · rw [heq3]
            · rw [heq5]

/-- Witness for C10: the sample repository's successful enumeration is
non-empty and starts with `repodata/repomd.xml`. -/
theorem listAllFiles_result_shape_witness :
    ([⟨"repodata/repomd.xml"⟩, ⟨"repodata/p.xml"⟩, ⟨"repodata/d.xml"⟩,
      ⟨"pkg-1.0.rpm"⟩, ⟨"pkg-1.0-1.1.drpm"⟩] : List FileSpec) ≠ [] ∧
    ([⟨"repodata/repomd.xml"⟩, ⟨"repodata/p.xml"⟩, ⟨"repodata/d.xml"⟩,
      ⟨"pkg-1.0.rpm"⟩, ⟨"pkg-1.0-1.1.drpm"⟩] : List FileSpec).head? =
      some (FileSpec.mk "repodata/repomd.xml") :=
  ⟨(listAllFiles_result_shape sampleSource sampleLib _ (by decide)).1,
   (listAllFiles_result_shape sampleSource sampleLib _ (by decide)).2.1⟩

/-!
Helper lemmas about the pipeline stages.
-/

/-- Extending a list that satisfies a predicate by one satisfying element. -/
theorem forall_mem_append_singleton {α : Type} {Q : α → Prop} {l : List α}
    {a : α} (hl : ∀ x ∈ l, Q x) (ha : Q a) : ∀ x ∈ l ++ [a], Q x := by
  intro x hx
  rcases List.mem_append.mp hx with h | h
  · exact hl x h
  · simp only [List.mem_singleton] at h
    subst h
    exact ha

/-- The checker loop never records or forwards a file with an empty path:
it exits at the first such file. -/
theorem checkerGo_no_sentinel (needsTransfer : File → Bool)
    (cancelled takeDone : Nat → Bool) :
    ∀ (input : List File) (i : Nat) (checked sent : List File) (n : Nat),
      (∀ f ∈ checked, f.Path ≠ "") → (∀ f ∈ sent, f.Path ≠ "") →
      (∀ f ∈ (checkerGo needsTransfer cancelled takeDone i input checked
        sent n).checked, f.Path ≠ "") ∧
      (∀ f ∈ (checkerGo needsTransfer cancelled takeDone i input checked
        sent n).sent, f.Path ≠ "") := by
  intro input
  induction input with
  | nil =>
    intro i checked sent n hc hs
    unfold checkerGo
    split
    · exact ⟨hc, hs⟩
    · exact ⟨hc, hs⟩
  | cons f rest ih =>
    intro i checked sent n hc hs
    unfold checkerGo
    split
    · exact ⟨hc, hs⟩
    · dsimp only
      split
      · exact ⟨hc, hs⟩
      · next hpath =>
        split
        · exact ih (i + 1) (checked ++ [f]) (sent ++ [f]) (n + 1)
            (forall_mem_append_singleton hc hpath)
            (forall_mem_append_singleton hs hpath)
        · exact ih (i + 1) (checked ++ [f]) sent n
            (forall_mem_append_singleton hc hpath) hs

/-- The transfer loop never attempts a file with an empty path: it exits at
the first such file. -/
theorem transferGo_no_sentinel (performTransfer : File → Bool)
    (cancelled takeDone : Nat → Bool) :
    ∀ (input : List File) (i : Nat) (attempted : List File) (n : Nat),
      (∀ f ∈ attempted, f.Path ≠ "") →
      ∀ f ∈ (transferGo performTransfer cancelled takeDone i input
        attempted n).attempted, f.Path ≠ "" := by
  intro input
  induction input with
  | nil =>
    intro i attempted n ha
    unfold transferGo
    split
    · exact ha
    · exact ha
  | cons f rest ih =>
    intro i attempted n ha
    unfold transferGo
    split
    · exact ha
    · dsimp only
      split
      · exact ha
      · next hpath =>
        exact ih (i + 1) (attempted ++ [f]) _
          (forall_mem_append_singleton ha hpath)

/-- Without cancellation the scraper loop forwards every file of every
directory listing — it applies no filter at all — and counts each one. -/
theorem scraperGo_forwards_everything :
    ∀ (dirs : List (List File)) (i : Nat) (sent : List File) (ds ff : Nat),
      (scraperGo (fun _ => false) i dirs sent ds ff).sent =
        sent ++ dirs.flatten ∧
      (scraperGo (fun _ => false) i dirs sent ds ff).filesFound =
        ff + dirs.flatten.length := by
  intro dirs
  induction dirs with
  | nil =>
    intro i sent ds ff
    unfold scraperGo
    simp
  | cons d rest ih =>
    intro i sent ds ff
    unfold scraperGo
    rcases ih (i + 1) (sent ++ d) (ds + 1) (ff + d.length) with ⟨h1, h2⟩
    simp only [Bool.false_eq_true, if_false, h1, h2, List.flatten_cons,
      List.length_append, List.append_assoc]
    constructor
    · trivial
    · omega

/-- If the context is cancelled from step `c` on, the scraper loop performs
at most `c` further directory scans: it exits at the latest when its
loop-head context check runs with index `c`. -/
theorem scraperGo_scanned_le (cancelled : Nat → Bool) (c : Nat)
    (hc : cancelled c = true) :
    ∀ (dirs : List (List File)) (i : Nat) (sent : List File) (ds ff : Nat),
      i ≤ c →
      (scraperGo cancelled i dirs sent ds ff).directoriesScanned ≤
        ds + (c - i) := by
  intro dirs
  induction dirs with
  | nil =>
    intro i sent ds ff hi
    unfold scraperGo
    split
    · exact Nat.le_add_right ds _
    · exact Nat.le_add_right ds _
  | cons d rest ih =>
    intro i sent ds ff hi
    unfold scraperGo
    split
    · exact Nat.le_add_right ds _
    · next hnc =>
      have hic : i < c := by
        rcases Nat.lt_or_ge i c with hlt | hge
        · exact hlt
        · rw [Nat.le_antisymm hi hge] at hnc
          exact absurd hc hnc
      have hrec := ih (i + 1) (sent ++ d) (ds + 1) (ff + d.length)
        (by omega)
      dsimp only
      omega

/-- If the done channel is closed and chosen at step `c`, the checker loop
dequeues (and hence invokes `NeedsTransfer` on) at most `c` files. -/
theorem checkerGo_checked_le (needsTransfer : File → Bool)
    (cancelled takeDone : Nat → Bool) (c : Nat)
    (hc : cancelled c = true) (htd : takeDone c = true) :
    ∀ (input : List File) (i : Nat) (checked sent : List File) (n : Nat),
      i ≤ c →
      (checkerGo needsTransfer cancelled takeDone i input checked
        sent n).checked.length ≤ checked.length + (c - i) := by
  intro input
  induction input with
  | nil =>
    intro i checked sent n hi
    unfold checkerGo
    split
    · exact Nat.le_add_right _ _
    · exact Nat.le_add_right _ _
  | cons f rest ih =>
    intro i checked sent n hi
    unfold checkerGo
    split
    · exact Nat.le_add_right _ _
    · next hnc =>
      have hic : i < c := by
        rcases Nat.lt_or_ge i c with hlt | hge
        · exact hlt
        · rw [Nat.le_antisymm hi hge] at hnc
          rw [hc, htd] at hnc
          simp at hnc
      dsimp only
      split
      · exact Nat.le_add_right _ _
      · split
        · have hrec := ih (i + 1) (checked ++ [f]) (sent ++ [f]) (n + 1)
            (by omega)
          simp only [List.length_append, List.length_singleton] at hrec
          omega
        · have hrec := ih (i + 1) (checked ++ [f]) sent n (by omega)
          simp only [List.length_append, List.length_singleton] at hrec
          omega

/-- If the done channel is closed and chosen at step `c`, the transfer loop
dequeues (and hence invokes `PerformTransfer` on) at most `c` files. -/
theorem transferGo_attempted_le (performTransfer : File → Bool)
    (cancelled takeDone : Nat → Bool) (c : Nat)
    (hc : cancelled c = true) (htd : takeDone c = true) :
    ∀ (input : List File) (i : Nat) (attempted : List File) (n : Nat),
      i ≤ c →
      (transferGo performTransfer cancelled takeDone i input
        attempted n).attempted.length ≤ attempted.length + (c - i) := by
  intro input
  induction input with
  | nil =>
    intro i attempted n hi
    unfold transferGo
    split
    · exact Nat.le_add_right _ _
    · exact Nat.le_add_right _ _
  | cons f rest ih =>
    intro i attempted n hi
    unfold transferGo
    split
    · exact Nat.le_add_right _ _
    · next hnc =>
      have hic : i < c := by
        rcases Nat.lt_or_ge i c with hlt | hge
        · exact hlt
        · rw [Nat.le_antisymm hi hge] at hnc
          rw [hc, htd] at hnc
          simp at hnc
      dsimp only
      split
      · exact Nat.le_add_right _ _
      · have hrec := ih (i + 1) (attempted ++ [f])
          (if performTransfer f = true then n + 1 else n) (by omega)
        simp only [List.length_append, List.length_singleton] at hrec
        omega

/-- Counterexample to C2 as stated: the scraper stage of threads.go applies
no empty-path check — given an enumerator whose listing contains a `File`
with an empty path, `makeScraperThread` counts it in `filesFound` and
forwards it downstream as work, instead of treating it as a sentinel. -/
theorem scraper_counts_and_forwards_empty_path :
    (makeScraperThread (fun _ => false) [[File.mk ""]]).filesFound = 1 ∧
    (makeScraperThread (fun _ => false) [[File.mk ""]]).sent =
      [File.mk ""] := by
  decide

/-- C2 (amended): the Checker and Transfer stages treat a `File` with an
empty path as the end-of-stream sentinel — neither ever calls
`NeedsTransfer`/`PerformTransfer` on one, counts one, or forwards one
downstream (they exit at the first such file) — while the Scraper stage
performs no such check: it counts every file its enumerator yields and
forwards all of them verbatim. -/
theorem empty_path_sentinel_checker_transfer_only
    (needsTransfer performTransfer : File → Bool)
    (cancelled tdc tdt : Nat → Bool) (input input2 : List File)
    (dirs : List (List File)) :
    (∀ f ∈ (makeCheckerThread needsTransfer cancelled tdc input).checked,
      f.Path ≠ "") ∧
    (∀ f ∈ (makeCheckerThread needsTransfer cancelled tdc input).sent,
      f.Path ≠ "") ∧
    (∀ f ∈ (makeTransferThread performTransfer cancelled tdt
      input2).attempted, f.Path ≠ "") ∧
    (makeScraperThread (fun _ => false) dirs).sent = dirs.flatten ∧
    (makeScraperThread (fun _ => false) dirs).filesFound =
      dirs.flatten.length := by
  refine ⟨?_, ?_, ?_, ?_, ?_⟩
  · exact (checkerGo_no_sentinel needsTransfer cancelled tdc input 0 [] [] 0
      (by simp) (by simp)).1
  · exact (checkerGo_no_sentinel needsTransfer cancelled tdc input 0 [] [] 0
      (by simp) (by simp)).2
  · exact transferGo_no_sentinel performTransfer cancelled tdt input2 0 [] 0
      (by simp)
  · have h := (scraperGo_forwards_everything dirs 0 [] 0 0).1
    simpa using h
  · have h := (scraperGo_forwards_everything dirs 0 [] 0 0).2
    simpa using h

/-- Witness for the amended C2: a nonempty-path file processed by the
checker indeed has a nonempty path. -/
theorem empty_path_sentinel_checker_transfer_only_witness :
    (File.mk "a").Path ≠ "" :=
  (empty_path_sentinel_checker_transfer_only (fun _ => true) (fun _ => true)
    (fun _ => false) (fun _ => false) (fun _ => false) [File.mk "a"]
    [File.mk "a"] [[File.mk "a"]]).1 (File.mk "a") (by decide)

/-- Counterexample to C3 as stated: with the cancellation signal fired
before any work (the done channel closed at every step) and one file still
queued, the checker's `select` may choose the ready input branch (Go picks
uniformly among ready cases), so the stage dequeues and processes a new
item after cancellation. -/
theorem checker_processes_after_cancellation :
    (makeCheckerThread (fun _ => true) (fun _ => true) (fun _ => false)
      [File.mk "a"]).checked = [File.mk "a"] := by
  decide

/-- C3 (amended): once the cancellation signal has fired (at loop index `c`
here), the Scraper begins no further directory listing — it checks the
context at every loop head, so it scans at most `c` directories in total —
and the Checker and Transfer stages process at most `c` items in total,
stopping at the latest when their `select` first chooses the now-ready done
branch; they are not, however, guaranteed to stop dequeuing at the instant
the signal fires (see the counterexample). -/
theorem cancellation_limits_new_items
    (needsTransfer performTransfer : File → Bool)
    (cancelled tdc tdt : Nat → Bool) (dirs : List (List File))
    (input input2 : List File) (c : Nat) (hc : cancelled c = true) :
    (makeScraperThread cancelled dirs).directoriesScanned ≤ c ∧
    (tdc c = true →
      (makeCheckerThread needsTransfer cancelled tdc input).checked.length ≤
        c) ∧
    (tdt c = true →
      (makeTransferThread performTransfer cancelled tdt
        input2).attempted.length ≤ c) := by
  refine ⟨?_, ?_, ?_⟩
  · have h := scraperGo_scanned_le cancelled c hc dirs 0 [] 0 0 (by omega)
    simpa using h
  · intro htd
    have h := checkerGo_checked_le needsTransfer cancelled tdc c hc htd
      input 0 [] [] 0 (by omega)
    simpa using h
  · intro htd
    have h := transferGo_attempted_le performTransfer cancelled tdt c hc htd
      input2 0 [] 0 (by omega)
    simpa using h

/-- Witness for the amended C3: with cancellation fired from the start and
the done branch always chosen, neither the scraper nor the checker begins
any work. -/
theorem cancellation_limits_new_items_witness :
    (makeScraperThread (fun _ => true)
      [[File.mk "a"]]).directoriesScanned ≤ 0 ∧
    (makeCheckerThread (fun _ => true) (fun _ => true) (fun _ => true)
      [File.mk "a"]).checked.length ≤ 0 :=
  ⟨(cancellation_limits_new_items (fun _ => true) (fun _ => true)
      (fun _ => true) (fun _ => true) (fun _ => true) [[File.mk "a"]]
      [File.mk "a"] [File.mk "a"] 0 rfl).1,
   (cancellation_limits_new_items (fun _ => true) (fun _ => true)
      (fun _ => true) (fun _ => true) (fun _ => true) [[File.mk "a"]]
      [File.mk "a"] [File.mk "a"] 0 rfl).2.1 rfl⟩

/-- C7: each of the four counters is written by exactly one stage, exactly
once, as that stage's final action after its loop (the write lists emitted
by the three stages mention each `CounterId` exactly once across all
stages), and the state the orchestrator reads after joining all stages — the
result of applying every stage write — equals each stage's final tally. -/
theorem counters_single_writer_read_after_join
    (cancelled tdc tdt : Nat → Bool) (dirs : List (List File))
    (needsTransfer performTransfer : File → Bool) :
    Run cancelled tdc tdt dirs needsTransfer performTransfer =
      { DirectoriesScanned :=
          (makeScraperThread cancelled dirs).directoriesScanned,
        FilesFound := (makeScraperThread cancelled dirs).filesFound,
        FilesNeedTransfer := (makeCheckerThread needsTransfer cancelled tdc
          (makeScraperThread cancelled dirs).sent).filesNeedTransfer,
        FilesTransferred := (makeTransferThread performTransfer cancelled
          tdt (makeCheckerThread needsTransfer cancelled tdc
            (makeScraperThread cancelled dirs).sent).sent).filesTransferred
      } ∧
    (∀ (so : ScrapeOutcome) (co : CheckOutcome) (tro : TransferOutcome),
      (scraperWrites so ++ checkerWrites co ++ transferWrites tro).countP
        (fun w => w.1 == CounterId.directoriesScanned) = 1 ∧
      (scraperWrites so ++ checkerWrites co ++ transferWrites tro).countP
        (fun w => w.1 == CounterId.filesFound) = 1 ∧
      (scraperWrites so ++ checkerWrites co ++ transferWrites tro).countP
        (fun w => w.1 == CounterId.filesNeedTransfer) = 1 ∧
      (scraperWrites so ++ checkerWrites co ++ transferWrites tro).countP
        (fun w => w.1 == CounterId.filesTransferred) = 1) :=
  ⟨rfl, fun so co tro => ⟨rfl, rfl, rfl, rfl⟩⟩
